import Mathlib

/-!
# Verification of the AuraFlow fine-tuning pipeline

Shallow embedding of the denoising orchestrator (`src/models/auraflow/pipeline.py`
and the older variant `src/models/auraflow/__init__.py`), the low-rank adapter
(LoRA) subsystem and the checkpoint-key remapping, together with proofs of the
spec's testable properties.

Tensors are modelled elementwise over `ℚ` (the claims under study are exact
algebraic identities, not floating-point statements); a 4-D latent batch is a
flat list of rationals with shape and dtype/device tags.
-/

namespace AuraFlow

/-! ## Guidance Combiner

From `src/models/auraflow/pipeline.py`, `AuraFlowModel.generate`, step "perform
cfg":

    noise_pred = noise_pred_negative + cfg_scale * (noise_pred_positive - noise_pred_negative)

The two estimates are same-shape tensors; the operation is elementwise. -/

/-- Elementwise classifier-free-guidance combination of a positive and a
negative noise estimate, from the cfg branch of `AuraFlowModel.generate`. -/
def cfgCombine (positive negative : List ℚ) (cfg_scale : ℚ) : List ℚ :=
  List.zipWith (fun p n => n + cfg_scale * (p - n)) positive negative

/-! ## Low-rank adapter (LoRA)

Modelled from the spec: `LoRALinear` / the Adapter Factory `wrap`
(`src/modules/peft`, only `config.py` and the tests are present in the tree).
Spec §4.6: forward contract
`output = original_projection(input) + (scale_alpha / rank) * up(dropout(down(input)))`,
up-projection created as exact zero, down-projection random. -/

/-- Matrix-vector product of an `[m, n]` weight with an `n`-vector. -/
def matVec {m n : ℕ} (w : Fin m → Fin n → ℚ) (x : Fin n → ℚ) : Fin m → ℚ :=
  fun i => ∑ j, w i j * x j

/-- A plain linear projection node: weight `[out, in]` and bias `[out]`. -/
structure LinearNode (outDim inDim : ℕ) where
  weight : Fin outDim → Fin inDim → ℚ
  bias : Fin outDim → ℚ

/-- Output of a plain linear projection. -/
def LinearNode.apply {m n : ℕ} (l : LinearNode m n) (x : Fin n → ℚ) : Fin m → ℚ :=
  fun i => matVec l.weight x i + l.bias i

/-- A low-rank adapter node wrapping a frozen original projection.
Modelled from the spec: `LoRALinear` owns a down-projection `[rank, in]`, an
up-projection `[out, rank]`, a scale `alpha`, and a dropout applied between
down and up. -/
structure LoRANode (outDim inDim rank : ℕ) where
  original : LinearNode outDim inDim
  lora_down : Fin rank → Fin inDim → ℚ
  lora_up : Fin outDim → Fin rank → ℚ
  alpha : ℚ
  dropout : (Fin rank → ℚ) → (Fin rank → ℚ)

/-- Forward pass of the adapter node, per the spec contract
`original(x) + (alpha / rank) * up(dropout(down(x)))`. -/
def LoRANode.forward {m n r : ℕ} (a : LoRANode m n r) (x : Fin n → ℚ) : Fin m → ℚ :=
  fun i =>
    a.original.apply x i + (a.alpha / r) * matVec a.lora_up (a.dropout (matVec a.lora_down x)) i

/-- Modelled from the spec: the Adapter Factory `wrap` replaces a matched
linear projection by a `LoRANode` whose down-projection is randomly drawn
(here: an arbitrary argument) and whose up-projection is created as exact
zero. -/
def wrap {m n r : ℕ} (original : LinearNode m n) (down : Fin r → Fin n → ℚ)
    (alpha : ℚ) (dropout : (Fin r → ℚ) → (Fin r → ℚ)) : LoRANode m n r :=
  { original := original
    lora_down := down
    lora_up := fun _ _ => 0
    alpha := alpha
    dropout := dropout }

/-! ## Latent tensors and seeded noise

A latent batch is a 4-D tensor `[batch, channels, height, width]`, stored here
as a flat list of per-sample blocks, with dtype and device tags.

`incremental_seed_randn` lives in `src/utils/tensor.py`, which is not in the
tree; it is modelled from the spec (§4.4 step 2): with a seed `S`, sample `i`
of the batch is drawn from a fresh generator seeded `S + i`, so a batch of
size `N` is the concatenation of `N` independent single-item draws with seeds
`S, S+1, …, S+N-1`; with no seed, the draw comes from the ambient,
unseeded RNG state. -/

/-- A 4-D tensor: shape, flattened data, dtype and device tags. -/
structure Tensor4 where
  batch : ℕ
  channels : ℕ
  height : ℕ
  width : ℕ
  data : List ℚ
  dtype : String
  device : String
  deriving Repr, DecidableEq

/-- Modelled from the spec: `incremental_seed_randn` from `src/utils/tensor.py`.
`gauss seed (c, h, w) dtype device` is the deterministic single-item Gaussian
draw of a generator seeded `seed` (abstract: the claims do not depend on the
distribution), and `ambient` is the data the unseeded path reads from the
global RNG state. -/
def incremental_seed_randn (gauss : ℕ → ℕ × ℕ × ℕ → String → String → List ℚ)
    (ambient : List ℚ) (shape : ℕ × ℕ × ℕ × ℕ) (seed : Option ℕ)
    (dtype device : String) : Tensor4 :=
  match shape, seed with
  | (b, c, h, w), none => ⟨b, c, h, w, ambient, dtype, device⟩
  | (b, c, h, w), some s =>
    ⟨b, c, h, w, (List.range b).flatMap (fun i => gauss (s + i) (c, h, w) dtype device),
      dtype, device⟩

/-- Torch `.to(dtype=dtype, device=device)`: retags the tensor and converts
each element through the dtype cast `cast` (abstract); the shape is
untouched. -/
def tensorTo (cast : String → ℚ → ℚ) (t : Tensor4) (dtype device : String) : Tensor4 :=
  ⟨t.batch, t.channels, t.height, t.width, t.data.map (cast dtype), dtype, device⟩

/-- From `src/models/auraflow/pipeline.py`, `AuraFlowModel.prepare_latents`:
with no explicit latents, draw seeded noise of shape
`[batch, latent_channels, height // compression, width // compression]`;
with explicit latents, return them converted to the requested dtype/device. -/
def prepare_latents (gauss : ℕ → ℕ × ℕ × ℕ → String → String → List ℚ)
    (ambient : List ℚ) (cast : String → ℚ → ℚ)
    (latent_channels compression_ratio : ℕ)
    (batch_size height width : ℕ) (dtype device : String)
    (seed : Option ℕ) (latents : Option Tensor4) : Tensor4 :=
  match latents with
  | none =>
    incremental_seed_randn gauss ambient
      (batch_size, latent_channels, height / compression_ratio, width / compression_ratio)
      seed dtype device
  | some l => tensorTo cast l dtype device

/-! ## Schedule Provider

`Scheduler.retrieve_timesteps` lives in `src/models/auraflow/scheduler.py`,
which is not in the tree; it is modelled from the spec (§4.1): an optional
custom noise-level (sigma) sequence overrides the default and fixes the
effective step count; otherwise the default schedule is a uniform, strictly
decreasing partition of the training noise range (timesteps in `[0, 1000]`,
noise levels in `[0, 1]`, linearly related) into `num_steps` points; a step
count below 1 is an `InvalidScheduleError`. -/

/-- Modelled from the spec: the default schedule — `num_steps` uniformly
spaced, strictly decreasing timesteps spanning the training noise range from
1000 down to `1000 / num_steps`. -/
def default_timesteps (num_steps : ℕ) : List ℚ :=
  (List.range num_steps).map
    (fun i : ℕ => 1000 * ((num_steps : ℚ) - (i : ℚ)) / (num_steps : ℚ))

/-- Modelled from the spec: `Scheduler.retrieve_timesteps` from
`src/models/auraflow/scheduler.py`. A supplied custom sigma sequence is
converted to timesteps (noise level `σ` ↦ timestep `1000 σ`) and fixes the
effective step count; otherwise the default schedule is used, after
rejecting `num_steps < 1`. -/
def retrieve_timesteps (num_inference_steps : ℕ) (sigmas : Option (List ℚ)) :
    Except String (List ℚ × ℕ) :=
  match sigmas with
  | some s => .ok (s.map (fun sigma => sigma * 1000), s.length)
  | none =>
    if num_inference_steps < 1 then .error "InvalidScheduleError"
    else .ok (default_timesteps num_inference_steps, num_inference_steps)

/-! ## Text encoding and the per-step denoiser call

`TextEncoder.encode_prompts` lives in `src/models/auraflow/text_encoder.py`,
which is not in the tree; it is modelled from the spec (§4.4 step 1):
conditioning is obtained for the positive prompts always and for the negative
prompts only when guidance is enabled (`use_negative_prompts`).

The per-step call of the external noise-prediction function is taken from the
denoising loop of `AuraFlowModel.generate`, in both variants:
`src/models/auraflow/pipeline.py` (which passes
`batch_timestep = torch.tensor([t / 1000]).expand(input_batch)` converted to
the latents' dtype/device) and the older `src/models/auraflow/__init__.py`
(which computes the same local broadcast but then passes the whole raw
schedule tensor `timesteps` instead). -/

/-- Output pair of the text encoder: positive and negative conditioning, one
embedding per prompt. -/
structure EncoderOutput (Emb : Type) where
  positive_embeddings : List Emb
  negative_embeddings : List Emb

/-- Modelled from the spec: `TextEncoder.encode_prompts` from
`src/models/auraflow/text_encoder.py`. Positive prompts are always encoded;
negative conditioning is built only when `use_negative_prompts` is set
(guidance enabled), otherwise no negative embeddings are produced. -/
def encode_prompts {Emb : Type} (embed : String → Emb)
    (prompt negative_prompt : List String) (use_negative_prompts : Bool) :
    EncoderOutput Emb :=
  { positive_embeddings := prompt.map embed
    negative_embeddings :=
      if use_negative_prompts then negative_prompt.map embed else [] }

/-- The guidance flag of `generate`: `do_cfg = cfg_scale > 1.0`. -/
def do_cfg (cfg_scale : ℚ) : Bool := decide (cfg_scale > 1)

/-- The arguments handed to the noise-prediction function at one denoising
step. The latent batch is a list of per-sample latents; the timestep argument
carries its data and its dtype/device tags. -/
structure DenoiserCall (Lat Emb : Type) where
  latent : List Lat
  encoder_hidden_states : List Emb
  timestep_data : List ℚ
  timestep_dtype : String
  timestep_device : String

/-- From `src/models/auraflow/pipeline.py`, `AuraFlowModel.generate`, one
iteration of the denoising loop: the latent input is doubled exactly when
guidance is enabled, the conditioning is `cat(positive, negative)` as encoded
with `use_negative_prompts = do_cfg`, and the timestep argument is
`[t / 1000]` expanded to the input batch size, converted to the latents'
dtype and device. -/
def generate_step_call {Lat Emb : Type} (embed : String → Emb)
    (cfg_scale : ℚ) (prompt negative_prompt : List String)
    (latents : List Lat) (lat_dtype lat_device : String) (t : ℚ) :
    DenoiserCall Lat Emb :=
  let enc := encode_prompts embed prompt negative_prompt (do_cfg cfg_scale)
  let latent_model_input := if do_cfg cfg_scale then latents ++ latents else latents
  { latent := latent_model_input
    encoder_hidden_states := enc.positive_embeddings ++ enc.negative_embeddings
    timestep_data := List.replicate latent_model_input.length (t / 1000)
    timestep_dtype := lat_dtype
    timestep_device := lat_device }

/-- From `src/models/auraflow/__init__.py`, `AuraFlowModel.generate` (older
variant), one iteration of the denoising loop: same latent doubling and
conditioning, but the timestep argument actually passed to the denoiser is
the whole raw schedule `timesteps` (the locally computed normalized broadcast
`timestep` is never used), with the schedule's own dtype/device tags. -/
def generate_step_call_init {Lat Emb : Type} (embed : String → Emb)
    (cfg_scale : ℚ) (prompt negative_prompt : List String)
    (latents : List Lat) (timesteps : List ℚ)
    (sched_dtype sched_device : String) : DenoiserCall Lat Emb :=
  let enc := encode_prompts embed prompt negative_prompt (do_cfg cfg_scale)
  { latent := if do_cfg cfg_scale then latents ++ latents else latents
    encoder_hidden_states := enc.positive_embeddings ++ enc.negative_embeddings
    timestep_data := timesteps
    timestep_dtype := sched_dtype
    timestep_device := sched_device }

/-! ## VAE scaling factor at the encode/decode boundary

Elementwise effect (one latent component shown) of the latent normalization
in `encode_image` / `decode_image`. Both variants divide by
`vae.scaling_factor` before `vae.decode`; only `pipeline.py` multiplies the
sampled posterior latent by it after `vae.encode` — the older `__init__.py`
returns the raw sample. The AuraFlow VAE's scaling factor is 0.13025. -/

/-- From `src/models/auraflow/pipeline.py`, `encode_image`: the returned
latent component for a raw VAE posterior sample `x` is
`x * scaling_factor`. -/
def pipeline_encode_latent (scaling_factor x : ℚ) : ℚ := x * scaling_factor

/-- From `src/models/auraflow/__init__.py`, `encode_image` (older variant):
the returned latent component is the raw VAE posterior sample, with no
scaling-factor multiplication. -/
def init_encode_latent (x : ℚ) : ℚ := x

/-- From `decode_image` (both variants): the latent component handed to
`vae.decode` is `latent / scaling_factor`. -/
def decode_latent_input (scaling_factor l : ℚ) : ℚ := l / scaling_factor

/-! ## Adapter injection: trainability of the parameter tree

`replace_to_peft_linear` lives in `src/modules/peft/__init__.py`, which is not
in the tree (only `config.py` and the tests are); its effect on the model's
named parameters is modelled from the spec (§4.6) and the tests
(`tests/test_peft.py`): after injection every pre-existing parameter is
frozen, and each target projection gains trainable `lora_down.weight` and
`lora_up.weight` factors plus a non-trainable `alpha` scale ("only down/up
(and bias, if enabled) marked trainable"). A qualified parameter path is a
list of dot-separated components. -/

/-- A named parameter of the module tree: qualified path (dot-separated
components) and its `requires_grad` flag. -/
structure ParamEntry where
  path : List String
  requires_grad : Bool
  deriving Repr, DecidableEq

/-- Adapter-marker containment: some path component starts with the `lora_`
marker (the tests check the marker with a substring test on the dotted
name). -/
def hasAdapterMarker (path : List String) : Bool :=
  path.any (fun c => "lora_".data.isPrefixOf c.data)

/-- Modelled from the spec: the named-parameter list of a module tree after
`replace_to_peft_linear` (from `src/modules/peft`, absent from the tree).
Each target projection path keeps its frozen `weight` and gains trainable
`lora_down.weight` and `lora_up.weight` plus a non-trainable `alpha`; every
other parameter is frozen. -/
def inject_lora_params (targets others : List (List String)) : List ParamEntry :=
  others.map (fun p => ⟨p, false⟩) ++
    targets.flatMap (fun p =>
      [⟨p ++ ["weight"], false⟩,
       ⟨p ++ ["lora_down", "weight"], true⟩,
       ⟨p ++ ["lora_up", "weight"], true⟩,
       ⟨p ++ ["alpha"], false⟩])

/-! ## Key Remapper

`convert_to_original_key` and `convert_to_comfy_key` live in
`src/models/auraflow` utility code absent from the tree (the tests import
them); they are modelled from the spec (§4.8) and the tests: a pure rewrite
of the internal `denoiser.`-prefixed keys of the Adapter Parameter Set to the
upstream convention (prefixed `model.`) or the third-party ComfyUI convention
(prefixed `diffusion_model.`); a key without the expected internal component
is a `KeyMappingError`. -/

/-- Total rewrite underlying `convert_to_original_key`: swap the leading
`denoiser.` for the upstream `model.`. -/
def original_key_of (key : String) : String :=
  ⟨"model.".data ++ key.data.drop "denoiser.".data.length⟩

/-- Total rewrite underlying `convert_to_comfy_key`: swap the leading
`denoiser.` for the third-party `diffusion_model.`. -/
def comfy_key_of (key : String) : String :=
  ⟨"diffusion_model.".data ++ key.data.drop "denoiser.".data.length⟩

/-- Modelled from the spec: `convert_to_original_key` — rewrite an internal
adapter key to the upstream original-checkpoint convention, failing with
`KeyMappingError` on a key that does not carry the internal `denoiser.`
component. -/
def convert_to_original_key (key : String) : Except String String :=
  if "denoiser.".data.isPrefixOf key.data then .ok (original_key_of key)
  else .error "KeyMappingError"

/-- Modelled from the spec: `convert_to_comfy_key` — rewrite an internal
adapter key to the third-party (ComfyUI) convention, failing with
`KeyMappingError` on a key that does not carry the internal `denoiser.`
component. -/
def convert_to_comfy_key (key : String) : Except String String :=
  if "denoiser.".data.isPrefixOf key.data then .ok (comfy_key_of key)
  else .error "KeyMappingError"

end AuraFlow

namespace AuraFlow

/-- Claim C4: the guidance combiner computes
`negative + cfg_scale * (positive - negative)` elementwise, and combining two
equal estimates returns that estimate unchanged for every guidance scale. -/
theorem cfgCombine_self_eq (a : List ℚ) (cfg_scale : ℚ) :
    cfgCombine a a cfg_scale = a := by
  induction a with
  | nil => rfl
  | cons x xs ih =>
    simp only [cfgCombine, List.zipWith_cons_cons] at ih ⊢
    rw [ih]
    ring_nf

/-- Claim C1: immediately after the Adapter Factory wraps a projection (the
up-projection created as exact zero, the down-projection arbitrary), the
adapter node's output equals the original projection's output exactly, for
every input vector and every dropout behaviour. -/
theorem wrap_forward_eq_original {m n r : ℕ} (original : LinearNode m n)
    (down : Fin r → Fin n → ℚ) (alpha : ℚ)
    (dropout : (Fin r → ℚ) → (Fin r → ℚ)) (x : Fin n → ℚ) :
    (wrap original down alpha dropout).forward x = original.apply x := by
  funext i
  simp [wrap, LoRANode.forward, matVec]

/-- Claim C2: seeded latent initialization is reproducible — the result of a
seeded draw does not depend on the ambient RNG state, only on seed, shape,
dtype and device — and incrementally seeded: the batch of size `b` drawn with
seed `s` is, latent-by-latent, the concatenation of `b` single-item draws with
seeds `s, s+1, …, s+b-1`. -/
theorem incremental_seed_randn_seeded
    (gauss : ℕ → ℕ × ℕ × ℕ → String → String → List ℚ)
    (ambient₁ ambient₂ : List ℚ) (b c h w s : ℕ) (dtype device : String) :
    incremental_seed_randn gauss ambient₁ (b, c, h, w) (some s) dtype device
        = incremental_seed_randn gauss ambient₂ (b, c, h, w) (some s) dtype device
      ∧ (incremental_seed_randn gauss ambient₁ (b, c, h, w) (some s) dtype device).data
        = (List.range b).flatMap (fun i =>
            (incremental_seed_randn gauss ambient₁ (1, c, h, w) (some (s + i))
              dtype device).data) := by
  refine ⟨rfl, ?_⟩
  have hone : List.range 1 = [0] := rfl
  simp [incremental_seed_randn, hone]

/-- Claim C10: when `prepare_latents` receives an explicit latents tensor, the
result is exactly that tensor converted to the requested dtype and device —
same shape, data changed only by the dtype cast — and the `seed`,
`batch_size`, `height` and `width` arguments have no effect on the result. -/
theorem prepare_latents_explicit
    (gauss : ℕ → ℕ × ℕ × ℕ → String → String → List ℚ)
    (ambient : List ℚ) (cast : String → ℚ → ℚ)
    (latent_channels compression_ratio batch_size height width : ℕ)
    (dtype device : String) (seed : Option ℕ) (l : Tensor4) :
    prepare_latents gauss ambient cast latent_channels compression_ratio
        batch_size height width dtype device seed (some l)
        = tensorTo cast l dtype device
      ∧ (tensorTo cast l dtype device).batch = l.batch
      ∧ (tensorTo cast l dtype device).channels = l.channels
      ∧ (tensorTo cast l dtype device).height = l.height
      ∧ (tensorTo cast l dtype device).width = l.width
      ∧ (tensorTo cast l dtype device).data = l.data.map (cast dtype)
      ∧ ∀ (seed' : Option ℕ) (batch' height' width' : ℕ),
          prepare_latents gauss ambient cast latent_channels compression_ratio
              batch' height' width' dtype device seed' (some l)
            = prepare_latents gauss ambient cast latent_channels compression_ratio
              batch_size height width dtype device seed (some l) :=
  ⟨rfl, rfl, rfl, rfl, rfl, rfl, fun _ _ _ _ => rfl⟩

/-- A strictly antitone function mapped over `List.range` yields a strictly
decreasing chain. -/
theorem chain_gt_map_range (f : ℕ → ℚ) (n : ℕ)
    (hf : ∀ i, i + 1 < n → f i > f (i + 1)) :
    ((List.range n).map f).Chain' (fun a b => a > b) := by
  rw [List.chain'_iff_get]
  intro i hi
  simp only [List.length_map, List.length_range] at hi
  have h2 : i + 1 < n := by omega
  simp only [List.get_eq_getElem, List.getElem_map, List.getElem_range]
  exact hf i h2

/-- Claim C5: for every `num_steps ≥ 1`, the schedule provider succeeds and
returns a timestep sequence whose length equals `num_steps` (or the custom
noise-level sequence's length when one is supplied) and which is strictly
monotonically decreasing (given that a supplied custom noise-level sequence
is itself strictly decreasing, the schedule's defining invariant). -/
theorem retrieve_timesteps_ok (num_steps : ℕ) (hn : 1 ≤ num_steps)
    (sigmas : Option (List ℚ))
    (hs : ∀ s, sigmas = some s → s.Chain' (fun a b => a > b)) :
    ∃ ts en, retrieve_timesteps num_steps sigmas = .ok (ts, en)
      ∧ ts.length = (match sigmas with
          | none => num_steps
          | some s => s.length)
      ∧ en = ts.length
      ∧ ts.Chain' (fun a b => a > b) := by
  match sigmas with
  | some s =>
    refine ⟨s.map (fun sigma => sigma * 1000), s.length,
      rfl, by rw [List.length_map], by rw [List.length_map], ?_⟩
    rw [List.chain'_map]
    exact (hs s rfl).imp (fun a b hab => by nlinarith)
  | none =>
    have hlt : ¬ num_steps < 1 := by omega
    have hlen : (default_timesteps num_steps).length = num_steps := by
      simp only [default_timesteps, List.length_map, List.length_range]
    refine ⟨default_timesteps num_steps, num_steps,
      by simp [retrieve_timesteps, hlt], hlen, hlen.symm, ?_⟩
    have hpos : (0 : ℚ) < num_steps := by
      exact_mod_cast Nat.lt_of_lt_of_le Nat.zero_lt_one hn
    unfold default_timesteps
    refine chain_gt_map_range _ _ (fun i hi => ?_)
    have hcast : (i : ℚ) + 1 < (num_steps : ℚ) := by exact_mod_cast hi
    rw [gt_iff_lt, div_lt_div_iff_of_pos_right hpos]
    push_cast
    linarith

/-- Claim C3: with guidance disabled (`cfg_scale ≤ 1.0`), the network input at
a denoising step is the undoubled latent batch, the text encoder builds no
negative embeddings, and the conditioning actually passed to the
noise-prediction function is exactly the positive embeddings. -/
theorem generate_no_cfg_skips_negative {Lat Emb : Type} (embed : String → Emb)
    (cfg_scale : ℚ) (h : cfg_scale ≤ 1) (prompt negative_prompt : List String)
    (latents : List Lat) (lat_dtype lat_device : String) (t : ℚ) :
    (generate_step_call embed cfg_scale prompt negative_prompt latents
        lat_dtype lat_device t).latent = latents
      ∧ (encode_prompts embed prompt negative_prompt (do_cfg cfg_scale) :
          EncoderOutput Emb).negative_embeddings = []
      ∧ (generate_step_call embed cfg_scale prompt negative_prompt latents
          lat_dtype lat_device t).encoder_hidden_states = prompt.map embed := by
  have hcfg : do_cfg cfg_scale = false := decide_eq_false (not_lt.mpr h)
  refine ⟨?_, ?_, ?_⟩ <;> simp [generate_step_call, encode_prompts, hcfg]

/-- Witness for C3: a concrete guidance-disabled call (`cfg_scale = 1`, one
prompt, one latent). -/
theorem generate_no_cfg_skips_negative_witness :
    (generate_step_call (fun p => p ++ "!") 1 ["cat"] ["dog"] [(5 : ℚ)]
        "bfloat16" "cuda" 500).latent = [(5 : ℚ)]
      ∧ (encode_prompts (fun p => p ++ "!") ["cat"] ["dog"] (do_cfg 1) :
          EncoderOutput String).negative_embeddings = []
      ∧ (generate_step_call (fun p => p ++ "!") 1 ["cat"] ["dog"] [(5 : ℚ)]
          "bfloat16" "cuda" 500).encoder_hidden_states
          = ["cat"].map (fun p => p ++ "!") :=
  generate_no_cfg_skips_negative (fun p => p ++ "!") 1 (by norm_num) ["cat"]
    ["dog"] [(5 : ℚ)] "bfloat16" "cuda" 500

/-- Claim C7: in the `pipeline.py` loop the timestep argument of the denoiser
call is the current schedule value divided by 1000, broadcast to the network
input's batch size and tagged with the latents' dtype and device — while the
older `__init__.py` loop instead passes the whole raw schedule, which on a
concrete two-step schedule differs from the claimed broadcast value. -/
theorem step_timestep_argument :
    (∀ (Lat Emb : Type) (embed : String → Emb) (cfg_scale : ℚ)
        (prompt negative_prompt : List String) (latents : List Lat)
        (lat_dtype lat_device : String) (t : ℚ),
        (generate_step_call embed cfg_scale prompt negative_prompt latents
            lat_dtype lat_device t).timestep_data
            = List.replicate
              (if do_cfg cfg_scale then 2 * latents.length else latents.length)
              (t / 1000)
          ∧ (generate_step_call embed cfg_scale prompt negative_prompt latents
              lat_dtype lat_device t).timestep_dtype = lat_dtype
          ∧ (generate_step_call embed cfg_scale prompt negative_prompt latents
              lat_dtype lat_device t).timestep_device = lat_device)
      ∧ (generate_step_call_init (fun p : String => p) 1 ["cat"] [] [(5 : ℚ)]
          [1000, 500] "float32" "cuda").timestep_data = [1000, 500]
      ∧ (generate_step_call_init (fun p : String => p) 1 ["cat"] [] [(5 : ℚ)]
          [1000, 500] "float32" "cuda").timestep_data
          ≠ List.replicate 1 ((1000 : ℚ) / 1000) := by
  refine ⟨?_, rfl, ?_⟩
  · intro Lat Emb embed cfg_scale prompt negative_prompt latents d dv t
    refine ⟨?_, rfl, rfl⟩
    cases hc : do_cfg cfg_scale
    · simp [generate_step_call, hc]
    · simp only [generate_step_call, hc, if_true]
      rw [List.length_append, two_mul]
  · intro hcontra
    have : ([1000, 500] : List ℚ) = List.replicate 1 ((1000 : ℚ) / 1000) := hcontra
    simp at this

/-- Claim C6: with the AuraFlow VAE scaling factor 0.13025, the `pipeline.py`
boundary is symmetric — dividing before decode cancels the multiplication
after encode exactly, for every latent component — but the older
`__init__.py` `encode_image` omits the multiplication, so its
decode-after-encode path scales the latent by 1/0.13025 instead of restoring
it. -/
theorem vae_scaling_factor_boundary :
    (∀ x : ℚ, decode_latent_input (13025 / 100000)
        (pipeline_encode_latent (13025 / 100000) x) = x)
      ∧ decode_latent_input (13025 / 100000) (init_encode_latent 1) ≠ 1 := by
  constructor
  · intro x
    unfold pipeline_encode_latent decode_latent_input
    field_simp
  · unfold init_encode_latent decode_latent_input
    norm_num

/-- Witness for C5: a concrete run on the custom-sigma branch with a strictly
decreasing two-element noise-level sequence. -/
theorem retrieve_timesteps_ok_witness :
    ∃ ts en, retrieve_timesteps 2 (some [3/4, 1/2]) = .ok (ts, en)
      ∧ ts.length = (match (some [3/4, 1/2] : Option (List ℚ)) with
          | none => 2
          | some s => s.length)
      ∧ en = ts.length
      ∧ ts.Chain' (fun a b => a > b) :=
  retrieve_timesteps_ok 2 (by norm_num) (some [3/4, 1/2])
    (by intro s h; cases h; rw [List.chain'_pair]; norm_num)

/-- The adapter marker distributes over path concatenation. -/
theorem hasAdapterMarker_append (p q : List String) :
    hasAdapterMarker (p ++ q) = (hasAdapterMarker p || hasAdapterMarker q) := by
  simp [hasAdapterMarker, List.any_append]

/-- Claim C8: after adapter injection, a parameter has gradients enabled
exactly when its qualified path contains the adapter-marker token — provided
the pre-injection tree carries no marker of its own (trainable iff marked, so
marked paths are enabled and all others disabled). -/
theorem inject_lora_requires_grad (targets others : List (List String))
    (ht : ∀ p ∈ targets, hasAdapterMarker p = false)
    (ho : ∀ p ∈ others, hasAdapterMarker p = false) :
    ∀ e ∈ inject_lora_params targets others,
      e.requires_grad = hasAdapterMarker e.path := by
  have hw : hasAdapterMarker ["weight"] = false := by decide
  have hd : hasAdapterMarker ["lora_down", "weight"] = true := by decide
  have hu : hasAdapterMarker ["lora_up", "weight"] = true := by decide
  have ha : hasAdapterMarker ["alpha"] = false := by decide
  intro e he
  rcases List.mem_append.mp he with hmem | hmem
  · obtain ⟨p, hp, rfl⟩ := List.mem_map.mp hmem
    exact (ho p hp).symm
  · obtain ⟨p, hp, hin⟩ := List.mem_flatMap.mp hmem
    have hpm := ht p hp
    simp only [List.mem_cons, List.mem_singleton] at hin
    rcases hin with rfl | rfl | rfl | rfl | h
    · simp [hasAdapterMarker_append, hpm, hw]
    · simp [hasAdapterMarker_append, hpm, hd]
    · simp [hasAdapterMarker_append, hpm, hu]
    · simp [hasAdapterMarker_append, hpm, ha]
    · cases h

/-- Witness for C8: in a concrete injected tree (one target `layer1.0`, one
untouched parameter `layer1.2.weight`), the trainable `lora_down` factor of
the target satisfies the trainability invariant. -/
theorem inject_lora_requires_grad_witness :
    (ParamEntry.mk ["layer1", "0", "lora_down", "weight"] true).requires_grad
      = hasAdapterMarker ["layer1", "0", "lora_down", "weight"] :=
  inject_lora_requires_grad [["layer1", "0"]] [["layer1", "2", "weight"]]
    (by decide) (by decide)
    ⟨["layer1", "0", "lora_down", "weight"], true⟩ (by decide)

/-- A leading segment, recognized at the Boolean level, is followed by the
corresponding drop. -/
theorem eq_append_drop_of_isPrefixOf :
    ∀ (p l : List Char), p.isPrefixOf l = true → l = p ++ l.drop p.length
  | [], _, _ => rfl
  | _ :: _, [], h => by cases h
  | a :: p, b :: l, h => by
    simp only [List.isPrefixOf, Bool.and_eq_true, beq_iff_eq] at h
    obtain ⟨rfl, h2⟩ := h
    simpa using eq_append_drop_of_isPrefixOf p l h2

/-- A list is a Boolean-level leading segment of itself followed by
anything. -/
theorem isPrefixOf_append_self :
    ∀ (p t : List Char), p.isPrefixOf (p ++ t) = true
  | [], _ => by simp [List.isPrefixOf]
  | a :: p, t => by simp [List.isPrefixOf, isPrefixOf_append_self p t]

/-- Two strings with the `denoiser.` component that agree after the component
is dropped are equal. -/
theorem key_eq_of_drop_eq {a b : String}
    (hpa : "denoiser.".data.isPrefixOf a.data = true)
    (hpb : "denoiser.".data.isPrefixOf b.data = true)
    (h : a.data.drop "denoiser.".data.length = b.data.drop "denoiser.".data.length) :
    a = b := by
  have hda : a.data = b.data := by
    rw [eq_append_drop_of_isPrefixOf _ _ hpa, eq_append_drop_of_isPrefixOf _ _ hpb, h]
  cases a; cases b; exact congrArg String.mk hda

/-- Claim C9: over any duplicate-free internal Adapter Parameter Set key list
(all keys carrying the internal `denoiser.` component, as the collector
produces them), `convert_to_original_key` succeeds on every key and yields a
duplicate-free key list of the same count in which every key starts with
`model.`; `convert_to_comfy_key` likewise yields a same-count duplicate-free
list in which every key starts with `diffusion_model.`. -/
theorem convert_keys_count_and_prefix_ok (keys : List String)
    (hnd : keys.Nodup)
    (hall : ∀ k ∈ keys, "denoiser.".data.isPrefixOf k.data = true) :
    (keys.map convert_to_original_key
        = (keys.map original_key_of).map Except.ok
      ∧ (keys.map original_key_of).length = keys.length
      ∧ (keys.map original_key_of).Nodup
      ∧ ∀ m ∈ keys.map original_key_of,
          "model.".data.isPrefixOf m.data = true)
    ∧ (keys.map convert_to_comfy_key
        = (keys.map comfy_key_of).map Except.ok
      ∧ (keys.map comfy_key_of).length = keys.length
      ∧ (keys.map comfy_key_of).Nodup
      ∧ ∀ m ∈ keys.map comfy_key_of,
          "diffusion_model.".data.isPrefixOf m.data = true) := by
  constructor
  · refine ⟨?_, by rw [List.length_map], ?_, ?_⟩
    · rw [List.map_map]
      refine List.map_congr_left (fun k hk => ?_)
      simp [convert_to_original_key, hall k hk]
    · refine List.Nodup.map_on (fun a ha b hb heq => ?_) hnd
      refine key_eq_of_drop_eq (hall a ha) (hall b hb) ?_
      have := congrArg String.data heq
      simpa [original_key_of] using List.append_cancel_left this
    · intro m hm
      obtain ⟨k, _, rfl⟩ := List.mem_map.mp hm
      exact isPrefixOf_append_self _ _
  · refine ⟨?_, by rw [List.length_map], ?_, ?_⟩
    · rw [List.map_map]
      refine List.map_congr_left (fun k hk => ?_)
      simp [convert_to_comfy_key, hall k hk]
    · refine List.Nodup.map_on (fun a ha b hb heq => ?_) hnd
      refine key_eq_of_drop_eq (hall a ha) (hall b hb) ?_
      have := congrArg String.data heq
      simpa [comfy_key_of] using List.append_cancel_left this
    · intro m hm
      obtain ⟨k, _, rfl⟩ := List.mem_map.mp hm
      exact isPrefixOf_append_self _ _

/-- Witness for C9: the remapping of a concrete two-key adapter set succeeds
with both target conventions. -/
theorem convert_keys_count_and_prefix_ok_witness :
    ["denoiser.a", "denoiser.b"].map convert_to_original_key
        = (["denoiser.a", "denoiser.b"].map original_key_of).map Except.ok
      ∧ (["denoiser.a", "denoiser.b"].map original_key_of).length
        = (["denoiser.a", "denoiser.b"] : List String).length
      ∧ ["denoiser.a", "denoiser.b"].map convert_to_comfy_key
        = (["denoiser.a", "denoiser.b"].map comfy_key_of).map Except.ok :=
  let h := convert_keys_count_and_prefix_ok ["denoiser.a", "denoiser.b"]
    (by decide) (by decide)
  ⟨h.1.1, h.1.2.1, h.2.1⟩

end AuraFlow
